import Mathlib

/-!
Shallow embedding of the segmented relax VM core
(src/runtime/relax_vm/vm.cc and include/tvm/runtime/relax_vm/vm.h):
register values, instructions, frames, the Call-instruction interpreter
RunInstrCall, the dispatch loop RunLoop, and the Segment Runner operations
SegmentRunnerLoad / SegmentRunnerSetInput / SegmentRunnerRun.
Machine ints are modelled as Nat/Int; fatal checks (ICHECK / LOG(FATAL)) and
undefined behaviour (out-of-bounds vector access, null dereference) are
modelled as Option.none.  External native calls and the instrumentation
callback are oracles carried by the environment.
-/

namespace TvmSegment

/-- Dynamically-typed register value (TVMRetValue / RegType).  Tensors and
other opaque objects are abstracted as numbered objects. -/
inductive Value where
  | null
  | int (i : Int)
  | bool (b : Bool)
  | str (s : String)
  | dtype (s : String)
  | func (idx : Nat)
  | vmctx
  | obj (id : Nat)
deriving DecidableEq

/-- Call-argument tag (Instruction::Arg).  Modelled from the spec: the
bytecode header is not under src/; the spec lists the four argument kinds
Register, Immediate, ConstantIndex, FunctionIndex. -/
inductive InstrArg where
  | register (reg : Nat)
  | immediate (v : Int)
  | constIdx (i : Nat)
  | funcIdx (i : Nat)
deriving DecidableEq

/-- Fixed-width instruction.  Modelled from the spec: the bytecode header is
not under src/; the spec gives the opcode set Call / Ret / Goto / If and
their fields, matching the uses in vm.cc. -/
inductive Instruction where
  | call (dst : Nat) (func_idx : Nat) (args : List InstrArg)
  | ret (result : Nat)
  | goto (pc_offset : Int)
  | ifOp (cond : Nat) (false_offset : Int)
deriving DecidableEq

/-- Modelled from the spec: the register boundary constant separating
ordinary register ids from the special void / context registers. -/
def kBeginSpecialReg : Nat := 2 ^ 54

def kVoidRegister : Nat := kBeginSpecialReg

def kVMRegister : Nat := kBeginSpecialReg + 1

/-- VMFrame (vm.h): return pc, register file, caller's destination register.
The scratch call-argument buffers are modelled inline in runInstrCall. -/
structure VMFrame where
  return_pc : Int
  register_file : List Value
  caller_return_register : Nat
deriving DecidableEq

/-- The subset of VMFuncInfo the modelled code reads. -/
structure VMFuncInfo where
  name : String
  start_instr : Nat
  register_file_size : Nat
  num_args : Nat
deriving DecidableEq

/-- Immutable parts of the VM: the executable view plus oracles for the
externally supplied native calls (func_pool entries) and the installed
instrumentation callback. -/
structure Env where
  instructions : List Instruction
  const_pool : List Value
  func_table : List VMFuncInfo
  main_func_idx : Option Nat
  instrument : Option (List Value → Value)
  invoke : Nat → List Value → Value

/-- ReadRegister (vm.h): ordinary registers index the register file (raw
vector access, out of bounds is UB); the void register reads null; the
context register reads the VM pointer; any other special id is a failed
ICHECK. -/
def readRegister (frame : VMFrame) (reg : Nat) : Option Value :=
  if reg < kBeginSpecialReg then
    frame.register_file.get? reg
  else if reg = kVoidRegister then some Value.null
  else if reg = kVMRegister then some Value.vmctx
  else none

/-- WriteRegister (vm.h): ICHECK_LT(reg, register_file.size()) then store. -/
def writeRegister (frame : VMFrame) (reg : Nat) (obj : Value) : Option VMFrame :=
  if reg < frame.register_file.length then
    some { frame with register_file := frame.register_file.set reg obj }
  else none

/-- One iteration of the argument-materialisation loop in RunInstrCall:
Register reads the frame, Immediate is the literal, ConstIdx indexes the
constant pool (unchecked vector access), FuncIdx is ICHECKed against the
function pool and passes the pool entry. -/
def setArg (env : Env) (frame : VMFrame) : InstrArg → Option Value
  | InstrArg.register r => readRegister frame r
  | InstrArg.immediate v => some (Value.int v)
  | InstrArg.constIdx i => env.const_pool.get? i
  | InstrArg.funcIdx i =>
      if i < env.func_table.length then some (Value.func i) else none

/-- The whole argument-materialisation loop of RunInstrCall. -/
def setArgs (env : Env) (frame : VMFrame) : List InstrArg → Option (List Value)
  | [] => some []
  | a :: rest =>
    match setArg env frame a with
    | none => none
    | some v =>
      match setArgs env frame rest with
      | none => none
      | some vs => some (v :: vs)

/-- The dtype-to-string substitution RunInstrCall applies to argument slots
whose tcode is kTVMDataType before calling the instrumentation. -/
def dtypeToStrSlot : Value → Value
  | Value.dtype s => Value.str s
  | v => v

/-- Record of the external calls one RunInstrCall execution performs:
the full argument vector handed to the pre-call instrumentation (if any)
and the argument vector handed to the real native call (none if skipped). -/
structure CallEvent where
  instrument_args : Option (List Value)
  real_args : Option (List Value)
deriving DecidableEq

/-- Result of RunInstrCall: mutated current frame, new pc, call record. -/
structure InstrCallOut where
  frame : VMFrame
  pc : Int
  event : CallEvent
deriving DecidableEq

def kNoOp : Int := 0

def kSkipRun : Int := 1

/-- VirtualMachineImpl::RunInstrCall (vm.cc): materialise arguments,
ICHECK the function index, optionally wrap with instrumentation (replacing
dtype slots with their string form, with no restoration afterwards), invoke
the callee unless the instrument replied kSkipRun, store the return value
unless dst is a special register, increment pc. -/
def runInstrCall (env : Env) (curr_frame : VMFrame) (pc : Int) (dst : Nat)
    (func_idx : Nat) (args : List InstrArg) : Option InstrCallOut :=
  match setArgs env curr_frame args with
  | none => none
  | some argVals =>
    match env.func_table.get? func_idx with
    | none => none
    | some finfo =>
      match env.instrument with
      | none =>
        let ret := env.invoke func_idx argVals
        match (if dst < kBeginSpecialReg then writeRegister curr_frame dst ret
               else some curr_frame) with
        | none => none
        | some frame2 =>
          some { frame := frame2, pc := pc + 1,
                 event := { instrument_args := none, real_args := some argVals } }
      | some instrumentFn =>
        let conv := argVals.map dtypeToStrSlot
        let preValues := [Value.func func_idx, Value.str finfo.name,
                          Value.bool true, Value.null] ++ conv
        let rv := instrumentFn preValues
        let ret_kind : Int := match rv with | Value.int k => k | _ => kNoOp
        if ret_kind ≠ kSkipRun then
          let ret := env.invoke func_idx conv
          let postValues := [Value.func func_idx, Value.str finfo.name,
                             Value.bool false, ret] ++ conv
          let _rv2 := instrumentFn postValues
          match (if dst < kBeginSpecialReg then writeRegister curr_frame dst ret
                 else some curr_frame) with
          | none => none
          | some frame2 =>
            some { frame := frame2, pc := pc + 1,
                   event := { instrument_args := some preValues,
                              real_args := some conv } }
        else
          match (if dst < kBeginSpecialReg then writeRegister curr_frame dst Value.null
                 else some curr_frame) with
          | none => none
          | some frame2 =>
            some { frame := frame2, pc := pc + 1,
                   event := { instrument_args := some preValues,
                              real_args := none } }

/-- State seen by the dispatch loop RunLoop: the active frame stack (the
back of the list is the stack top), pc, and the special return register. -/
structure LoopSt where
  frames : List VMFrame
  pc : Int
  return_value : Value
deriving DecidableEq

/-- VirtualMachineImpl::RunLoop (vm.cc), fuel-bounded.  Each iteration
ICHECKs the pc, decodes, and dispatches on the opcode; Ret stores the source
register into return_value_ and, if a parent frame exists, writes the value
into the parent's caller_return_register, then leaves the loop.  none models
fuel exhaustion or a fatal check. -/
def runLoop (env : Env) : Nat → LoopSt → Option LoopSt
  | 0, _ => none
  | Nat.succ fuel, st =>
    match st.frames.getLast? with
    | none => none
    | some curr_frame =>
      if st.pc < 0 then none
      else
        match env.instructions.get? st.pc.toNat with
        | none => none
        | some (Instruction.call dst fi cargs) =>
          match runInstrCall env curr_frame st.pc dst fi cargs with
          | none => none
          | some out =>
            runLoop env fuel
              { st with frames := st.frames.dropLast ++ [out.frame], pc := out.pc }
        | some (Instruction.ret result) =>
          match readRegister curr_frame result with
          | none => none
          | some v =>
            if st.frames.length ≤ 1 then
              some { st with return_value := v }
            else
              match st.frames.dropLast.getLast? with
              | none => none
              | some parent =>
                match writeRegister parent curr_frame.caller_return_register v with
                | none => none
                | some parent2 =>
                  some { st with
                         return_value := v,
                         frames := st.frames.dropLast.dropLast ++ [parent2, curr_frame] }
        | some (Instruction.goto off) =>
          runLoop env fuel { st with pc := st.pc + off }
        | some (Instruction.ifOp cond foff) =>
          match readRegister curr_frame cond with
          | some (Value.int cv) =>
            if cv ≠ 0 then runLoop env fuel { st with pc := st.pc + 1 }
            else if foff > 1 then runLoop env fuel { st with pc := st.pc + foff }
            else none
          | _ => none

/-- Mutable segment-runner state of VirtualMachineImpl: the parsed segment
table, the initialized flag, the persistent frame, the pc, the (static)
prev_segment_id of SegmentRunnerRun, and the return_value_ register. -/
structure VMSt where
  per_segment_pc_list : List (List Nat)
  are_segments_initialized : Bool
  segments_frame : Option VMFrame
  pc : Int
  prev_segment_id : Int
  return_value : Value
deriving DecidableEq

/-- Outcome of one iteration of the SegmentRunnerRun loop body. -/
inductive SegStep where
  | cont (s : VMSt)
  | retHit (s : VMSt)
deriving DecidableEq

/-- One iteration of the loop in SegmentRunnerRun (vm.cc): set pc_ to the
segment entry, ICHECK it against the instruction stream, decode, and execute
one instruction against the persistent frame; decoding Ret stops the
segment with an error. -/
def stepSegPc (env : Env) (v : Nat) (s : VMSt) : Option SegStep :=
  let s1 := { s with pc := (v : Int) }
  match env.instructions.get? v with
  | none => none
  | some (Instruction.call dst fi cargs) =>
    match s1.segments_frame with
    | none => none
    | some f =>
      match runInstrCall env f s1.pc dst fi cargs with
      | none => none
      | some out =>
        some (SegStep.cont { s1 with segments_frame := some out.frame, pc := out.pc })
  | some (Instruction.ret _) => some (SegStep.retHit s1)
  | some (Instruction.goto off) => some (SegStep.cont { s1 with pc := s1.pc + off })
  | some (Instruction.ifOp cond foff) =>
    match s1.segments_frame with
    | none => none
    | some f =>
      match readRegister f cond with
      | some (Value.int cv) =>
        if cv ≠ 0 then some (SegStep.cont { s1 with pc := s1.pc + 1 })
        else if foff > 1 then some (SegStep.cont { s1 with pc := s1.pc + foff })
        else none
      | _ => none

/-- Final outcome of the SegmentRunnerRun loop over a segment's pc list. -/
inductive SegLoopEnd where
  | done (s : VMSt)
  | retHit (s : VMSt)
deriving DecidableEq

/-- The loop of SegmentRunnerRun over every pc of the selected segment. -/
def runSegPcs (env : Env) : List Nat → VMSt → Option SegLoopEnd
  | [], s => some (SegLoopEnd.done s)
  | v :: rest, s =>
    match stepSegPc env v s with
    | none => none
    | some (SegStep.retHit s2) => some (SegLoopEnd.retHit s2)
    | some (SegStep.cont s2) => runSegPcs env rest s2

/-- VirtualMachineImpl::SegmentRunnerRun (vm.cc): reject when the runner is
not initialized or segment_id exceeds the table; process every pc of the
segment; a decoded Ret aborts with -1; on completion the conditional reset
of prev_segment_id is immediately overwritten by prev_segment_id :=
segment_id (as in the source) and segment_id is returned. -/
def segmentRunnerRun (env : Env) (s : VMSt) (segment_id : Nat) : Option (Int × VMSt) :=
  if s.are_segments_initialized = false then some (-1, s)
  else
    let segment_length : Int := (s.per_segment_pc_list.length : Int)
    if (segment_id : Int) > segment_length - 1 then some (-1, s)
    else
      match runSegPcs env (s.per_segment_pc_list.getD segment_id []) s with
      | none => none
      | some (SegLoopEnd.retHit s2) => some (-1, s2)
      | some (SegLoopEnd.done s2) =>
        let s3 := if (segment_id : Int) = segment_length - 1 then
                    { s2 with prev_segment_id := -1 }
                  else s2
        some ((segment_id : Int), { s3 with prev_segment_id := (segment_id : Int) })

/-- The write loop of _SegmentRunnerSetInput: WriteRegister(frame, i, input[i]). -/
def writeSequential (f : VMFrame) : List Value → Nat → Option VMFrame
  | [], _ => some f
  | v :: rest, i =>
    match writeRegister f i v with
    | none => none
    | some f2 => writeSequential f2 rest (i + 1)

/-- VirtualMachineImpl::_SegmentRunnerSetInput (vm.cc), including its slips:
with zero packed args the vector of size args.size()-1 overflows (none);
the first packed argument is always dropped (input[i] = args[i+1]); when
segments_frame_ is null the error sets rv = -1 but execution falls through,
so with no tensors to write the function still ends with rv = 0, and
otherwise dereferences the null frame (none). -/
def segmentRunnerSetInputPacked (args : List Value) (s : VMSt) : Option (Int × VMSt) :=
  if args.length = 0 then none
  else
    let input := args.drop 1
    match s.segments_frame with
    | none => if input = [] then some (0, s) else none
    | some f =>
      match writeSequential f input 0 with
      | none => none
      | some f2 => some (0, { s with segments_frame := some f2 })

/-- C isspace over the chars reachable inside a text line. -/
def isCSpace (c : Char) : Bool :=
  c == ' ' || c == '\t' || c == '\n' || c == '\x0b' || c == '\x0c' || c == '\r'

/-- The whitespace trim in SegmentRunnerLoad's preprocessing loop. -/
def trimLine (l : List Char) : List Char :=
  ((l.dropWhile isCSpace).reverse.dropWhile isCSpace).reverse

def splitLinesAux : List Char → List Char → List (List Char)
  | [], acc => [acc.reverse]
  | c :: rest, acc =>
    if c = '\n' then acc.reverse :: splitLinesAux rest []
    else splitLinesAux rest (c :: acc)

/-- std::getline over an istringstream: pieces between newlines; a final
piece after the last newline is yielded only if nonempty at stream level. -/
def getlineSplit (cs : List Char) : List (List Char) :=
  if cs = [] then []
  else if cs.getLast? = some '\n' then (splitLinesAux cs []).dropLast
  else splitLinesAux cs []

/-- The preprocessing loop of SegmentRunnerLoad: drop empty raw lines, trim
each, keep nonempty trimmed lines. -/
def preprocessLines (cs : List Char) : List (List Char) :=
  (getlineSplit cs).filterMap fun l =>
    if l = [] then none
    else
      let t := trimLine l
      if t = [] then none else some t

def digitsToNat (ds : List Char) : Nat :=
  ds.foldl (fun n c => 10 * n + (c.toNat - 48)) 0

/-- One attempted match of the regex pc\s*=\s*(\d+) at the head of the
character list: literal "pc", optional whitespace, '=', optional
whitespace, then a maximal nonempty digit run (the capture).  Returns the
captured number and the suffix after the match. -/
def pcMatchAt : List Char → Option (Nat × List Char)
  | 'p' :: 'c' :: rest =>
    (match rest.dropWhile isCSpace with
     | '=' :: rest2 =>
       let rest3 := rest2.dropWhile isCSpace
       let ds := rest3.takeWhile Char.isDigit
       if ds = [] then none
       else some (digitsToNat ds, rest3.dropWhile Char.isDigit)
     | _ => none)
  | _ => none

/-- Leftmost non-overlapping scan counting regex matches, as
std::sregex_iterator does; fuel-bounded by the line length. -/
def countPcAux : Nat → List Char → Nat
  | 0, _ => 0
  | _ + 1, [] => 0
  | fuel + 1, c :: rest =>
    match pcMatchAt (c :: rest) with
    | some (_, r) => 1 + countPcAux fuel r
    | none => countPcAux fuel rest

/-- Number of matches of pc\s*=\s*(\d+) in a line
(std::distance over sregex_iterator). -/
def countPcMatches (cs : List Char) : Nat := countPcAux cs.length cs

/-- First match of the pattern in the line (std::regex_search + stoi). -/
def firstPcMatch : List Char → Option Nat
  | [] => none
  | c :: rest =>
    match pcMatchAt (c :: rest) with
    | some (n, _) => some n
    | none => firstPcMatch rest

def segTok : List Char := "@seg".data

/-- Outcome of the parsing loop of SegmentRunnerLoad: err carries the
partially mutated member table at the early -1 return. -/
inductive ParseOut where
  | err (table : List (List Nat))
  | ok (table : List (List Nat))
deriving DecidableEq

/-- The parsing loop of SegmentRunnerLoad: "@seg" starts a fresh segment;
any other line must contain exactly one pc match, whose number is appended
to the current (last) segment; push_back onto the back of an empty table
is UB (none). -/
def parseSegLines : List (List Char) → List (List Nat) → Option ParseOut
  | [], table => some (ParseOut.ok table)
  | l :: rest, table =>
    if l = segTok then parseSegLines rest (table ++ [[]])
    else
      let count := countPcMatches l
      if count = 0 then some (ParseOut.err table)
      else if count > 1 then some (ParseOut.err table)
      else
        match firstPcMatch l with
        | none => none
        | some pcv =>
          match table.getLast? with
          | none => none
          | some lastSeg =>
            parseSegLines rest (table.dropLast ++ [lastSeg ++ [pcv]])

/-- VirtualMachineImpl::SegmentRunnerLoad (vm.cc): reject empty input;
preprocess into trimmed nonempty lines ( front()/back() on the empty line
vector is UB, modelled as none); require the first and last line to be
"@seg"; run the parsing loop appending to the existing member table; drop a
trailing empty segment; mark initialized; look up main (fatal if missing);
reset pc to main's start and the persistent frame to a fresh frame sized to
main's register file; return the table size. -/
def segmentRunnerLoad (env : Env) (s : VMSt) (segments_info : String) :
    Option (Int × VMSt) :=
  let cs := segments_info.data
  if cs = [] then some (-1, s)
  else
    match preprocessLines cs with
    | [] => none
    | l0 :: restLines =>
      if l0 ≠ segTok then some (-1, s)
      else if (l0 :: restLines).getLast? ≠ some segTok then some (-1, s)
      else
        match parseSegLines (l0 :: restLines) s.per_segment_pc_list with
        | none => none
        | some (ParseOut.err t) => some (-1, { s with per_segment_pc_list := t })
        | some (ParseOut.ok t) =>
          match t.getLast? with
          | none => none
          | some lastSeg =>
            let t2 := if lastSeg = [] then t.dropLast else t
            match env.main_func_idx with
            | none => none
            | some midx =>
              match env.func_table.get? midx with
              | none => none
              | some minfo =>
                let s2 : VMSt :=
                  { per_segment_pc_list := t2,
                    are_segments_initialized := true,
                    segments_frame := some
                      { return_pc := (midx : Int),
                        register_file := List.replicate minfo.register_file_size Value.null,
                        caller_return_register := 0 },
                    pc := (minfo.start_instr : Int),
                    prev_segment_id := s.prev_segment_id,
                    return_value := s.return_value }
                some ((t2.length : Int), s2)

/-- Fresh VM segment-runner state (the member initialisers in vm.h plus the
static prev_segment_id = -1). -/
def initState : VMSt :=
  { per_segment_pc_list := [],
    are_segments_initialized := false,
    segments_frame := none,
    pc := 0,
    prev_segment_id := -1,
    return_value := Value.null }

/-- A minimal executable view with only a main function, used to evaluate
the Segment Runner operations on concrete inputs. -/
def envMain : Env :=
  { instructions := [],
    const_pool := [],
    func_table := [{ name := "main", start_instr := 0, register_file_size := 4,
                     num_args := 1 }],
    main_func_idx := some 0,
    instrument := none,
    invoke := fun _ _ => Value.null }

/-- An executable view whose single instruction is Ret r0. -/
def envRet : Env :=
  { instructions := [Instruction.ret 0],
    const_pool := [],
    func_table := [],
    main_func_idx := none,
    instrument := none,
    invoke := fun _ _ => Value.null }

/-- The state successfully loaded from "@seg\npc=0\n@seg\n" on envMain. -/
def sOneSeg : VMSt :=
  { per_segment_pc_list := [[0]],
    are_segments_initialized := true,
    segments_frame := some { return_pc := 0,
                             register_file := List.replicate 4 Value.null,
                             caller_return_register := 0 },
    pc := 0,
    prev_segment_id := -1,
    return_value := Value.null }

/-- The accumulated state after loading "@seg\npc=0\n@seg\n" twice. -/
def sAccum : VMSt := { sOneSeg with per_segment_pc_list := [[0], [0]] }

/-- The state successfully loaded from "@seg\n@seg\n" on envMain: one
remaining (empty) segment. -/
def sEmptySeg : VMSt := { sOneSeg with per_segment_pc_list := [[]] }

/-- The state successfully loaded from "@seg\npc=0\n@seg\npc=1\n@seg\n". -/
def sTwoSeg : VMSt := { sOneSeg with per_segment_pc_list := [[0], [1]] }

/-- An initialized runner state whose persistent frame is absent. -/
def sNoFrame : VMSt := { initState with are_segments_initialized := true }

/-- An uninitialized state with a two-register persistent frame. -/
def sTwoRegFrame : VMSt :=
  { initState with
    segments_frame := some { return_pc := 0,
                             register_file := [Value.null, Value.null],
                             caller_return_register := 0 } }

/-- Environment with one native function and an installed instrumentation
callback that always replies kNoOp. -/
def c8Env : Env :=
  { instructions := [],
    const_pool := [],
    func_table := [{ name := "f", start_instr := 0, register_file_size := 0,
                     num_args := 0 }],
    main_func_idx := none,
    instrument := some (fun _ => Value.int 0),
    invoke := fun _ _ => Value.null }

/-- A frame whose register 0 holds a data-type descriptor. -/
def c8Frame : VMFrame :=
  { return_pc := 0, register_file := [Value.dtype "float32"],
    caller_return_register := 0 }

/-- Result of executing Call dst=0 f=0 args=[r0] on c8Env / c8Frame. -/
def c8Out : InstrCallOut :=
  { frame := { return_pc := 0, register_file := [Value.null],
               caller_return_register := 0 },
    pc := 1,
    event := { instrument_args := some [Value.func 0, Value.str "f",
                 Value.bool true, Value.null, Value.str "float32"],
               real_args := some [Value.str "float32"] } }

/-- A two-frame dispatch-loop state: the top frame's register 0 holds 7 and
its caller destination register is the parent's register 0. -/
def st9 : LoopSt :=
  { frames := [{ return_pc := 0, register_file := [Value.null],
                 caller_return_register := 0 },
               { return_pc := 0, register_file := [Value.int 7],
                 caller_return_register := 0 }],
    pc := 0,
    return_value := Value.null }

theorem exists_getLast?_of_ne_nil {α : Type} :
    ∀ (l : List α), l ≠ [] → ∃ a, l.getLast? = some a
  | [a], _ => ⟨a, rfl⟩
  | _ :: b :: as, _ => by
    obtain ⟨x, hx⟩ := exists_getLast?_of_ne_nil (b :: as) (by simp)
    exact ⟨x, by rw [List.getLast?_cons_cons]; exact hx⟩

theorem dropLast_append_two {α : Type} (xs : List α) (a b : α) :
    (xs ++ [a, b]).dropLast = xs ++ [a] := by
  induction xs with
  | nil => rfl
  | cons x xs ih =>
    cases xs with
    | nil => rfl
    | cons y ys => simpa using ih

theorem getLast?_append_one {α : Type} (xs : List α) (a : α) :
    (xs ++ [a]).getLast? = some a := by
  induction xs with
  | nil => rfl
  | cons x xs ih =>
    cases xs with
    | nil => rfl
    | cons y ys => simpa using ih

theorem get?_set_self {α : Type} :
    ∀ (l : List α) (i : Nat) (a : α), i < l.length → (l.set i a).get? i = some a
  | _ :: _, 0, _, _ => rfl
  | _ :: xs, i + 1, a, h => by
    simpa using get?_set_self xs i a (by simpa using h)

/-- C10: for a non-empty input whose lines are all empty or whitespace-only
(here the single space line " \n"), SegmentRunnerLoad does NOT return -1:
the preprocessed line vector is empty and the front()/back() validation runs
on it anyway, which is undefined behaviour (modelled as none).  This
evaluates the code at the failing input, against the claim that load
returns -1 without accessing any parsed line. -/
theorem load_whitespace_only_crash (env : Env) (s : VMSt) :
    segmentRunnerLoad env s " \n" = none := rfl

/-- C4, counterexample: loading exactly two "@seg" lines returns 1 (one
empty segment remains after the trailing empty segment is dropped), not 0
as the claim states. -/
theorem load_two_seg_cex :
    (segmentRunnerLoad envMain initState "@seg\n@seg\n").map Prod.fst = some 1 ∧
    (1 : Int) ≠ 0 := by
  exact ⟨by decide, by decide⟩

/-- C4, amended: loading exactly two "@seg" lines succeeds and yields 1
segment, the empty segment opened by the first "@seg"; only the trailing
empty segment opened by the second "@seg" is silently dropped. -/
theorem load_two_seg_yields_one :
    segmentRunnerLoad envMain initState "@seg\n@seg\n" = some (1, sEmptySeg) ∧
    sEmptySeg.per_segment_pc_list = [[]] ∧
    sEmptySeg.are_segments_initialized = true := by
  exact ⟨by decide, rfl, rfl⟩

/-- C5: loading the same well-formed text twice is not idempotent: the
member segment table is never cleared, so the second load appends a second
copy of every segment and returns the doubled count. -/
theorem load_twice_accumulates_bug :
    segmentRunnerLoad envMain initState "@seg\npc=0\n@seg\n" = some (1, sOneSeg) ∧
    segmentRunnerLoad envMain sOneSeg "@seg\npc=0\n@seg\n" = some (2, sAccum) ∧
    sOneSeg.per_segment_pc_list = [[0]] ∧
    sAccum.per_segment_pc_list = [[0], [0]] ∧
    sAccum ≠ sOneSeg := by
  exact ⟨by decide, by decide, rfl, rfl, by decide⟩

/-- C7: after SegmentRunnerRun finishes the last segment (segment 0 of a
one-segment table), prev_segment_id is 0, not the initial -1: the
conditional reset in the source is immediately overwritten by
prev_segment_id = segment_id. -/
theorem run_prev_id_not_reset_bug :
    (segmentRunnerRun envMain sEmptySeg 0).map (fun p => p.2.prev_segment_id) =
      some 0 ∧
    (0 : Int) ≠ -1 := by
  exact ⟨by decide, by decide⟩

/-- C3: _SegmentRunnerSetInput does not fail when the persistent frame is
absent: with one packed tensor it prints the error, sets rv = -1, but falls
through and finally returns 0 (success); and with the frame present and two
packed tensors, the first tensor is dropped (input[i] = args[i+1]) and only
the second is written, into register 0 -- not both tensors into registers
0..1 as the claim states. -/
theorem setInput_missing_frame_bug :
    segmentRunnerSetInputPacked [Value.obj 0] sNoFrame = some (0, sNoFrame) ∧
    segmentRunnerSetInputPacked [Value.obj 1, Value.obj 2] sTwoRegFrame =
      some (0, { sTwoRegFrame with
                 segments_frame := some { return_pc := 0,
                                          register_file := [Value.obj 2, Value.null],
                                          caller_return_register := 0 } }) := by
  exact ⟨by decide, by decide⟩

/-- C8, counterexample: with instrumentation installed and a Call whose
argument is the data-type descriptor "float32", the real native call
receives the string form; the original data-type value is never restored in
the argument slot. -/
theorem instrument_dtype_not_restored_cex :
    (runInstrCall c8Env c8Frame 0 0 0 [InstrArg.register 0]).map
        (fun o => o.event.real_args) = some (some [Value.str "float32"]) ∧
    Value.str "float32" ≠ Value.dtype "float32" := by
  exact ⟨by decide, by decide⟩

theorem segmentRunnerLoad_inv (env : Env) (s : VMSt) (text : String) (r : Int)
    (s2 : VMSt) (h : segmentRunnerLoad env s text = some (r, s2)) :
    (r = -1 ∧ s2.are_segments_initialized = s.are_segments_initialized) ∨
    (r = (s2.per_segment_pc_list.length : Int) ∧
     s2.are_segments_initialized = true) := by
  unfold segmentRunnerLoad at h
  by_cases h0 : text.data = []
  · rw [if_pos h0] at h
    simp only [Option.some.injEq, Prod.mk.injEq] at h
    exact Or.inl ⟨h.1.symm, by rw [← h.2]⟩
  · rw [if_neg h0] at h
    rcases hp : preprocessLines text.data with _ | ⟨l0, restLines⟩ <;>
      rw [hp] at h <;> (try simp only [] at h)
    · exact Option.noConfusion h
    · by_cases h1 : l0 ≠ segTok
      · rw [if_pos h1] at h
        simp only [Option.some.injEq, Prod.mk.injEq] at h
        exact Or.inl ⟨h.1.symm, by rw [← h.2]⟩
      · rw [if_neg h1] at h
        by_cases h2 : (l0 :: restLines).getLast? ≠ some segTok
        · rw [if_pos h2] at h
          simp only [Option.some.injEq, Prod.mk.injEq] at h
          exact Or.inl ⟨h.1.symm, by rw [← h.2]⟩
        · rw [if_neg h2] at h
          rcases hq : parseSegLines (l0 :: restLines) s.per_segment_pc_list with
            _ | (t | t) <;> rw [hq] at h <;> (try simp only [] at h)
          · exact Option.noConfusion h
          · simp only [Option.some.injEq, Prod.mk.injEq] at h
            exact Or.inl ⟨h.1.symm, by rw [← h.2]⟩
          · rcases hl : t.getLast? with _ | lastSeg <;>
              rw [hl] at h <;> (try simp only [] at h)
            · exact Option.noConfusion h
            · rcases hm : env.main_func_idx with _ | midx <;>
                rw [hm] at h <;> (try simp only [] at h)
              · exact Option.noConfusion h
              · rcases hf : env.func_table.get? midx with _ | minfo <;>
                  rw [hf] at h <;> (try simp only [] at h)
                · exact Option.noConfusion h
                · simp only [Option.some.injEq, Prod.mk.injEq] at h
                  exact Or.inr ⟨by rw [← h.1, ← h.2], by rw [← h.2]⟩

/-- C2: whenever SegmentRunnerLoad on a not-yet-initialized runner fails to
parse (returns -1: empty input, missing leading or trailing @seg, or a
non-@seg line with zero or more than one pc match), the runner is left
uninitialized, and a subsequent SegmentRunnerRun(0) also returns -1. -/
theorem load_failure_leaves_uninit (env : Env) (s : VMSt) (text : String)
    (s2 : VMSt)
    (hs : s.are_segments_initialized = false)
    (h : segmentRunnerLoad env s text = some (-1, s2)) :
    s2.are_segments_initialized = false ∧
    segmentRunnerRun env s2 0 = some (-1, s2) := by
  have hinit : s2.are_segments_initialized = false := by
    rcases segmentRunnerLoad_inv env s text (-1) s2 h with ⟨-, h2⟩ | ⟨h1, -⟩
    · rw [h2, hs]
    · omega
  refine ⟨hinit, ?_⟩
  unfold segmentRunnerRun
  rw [hinit]
  simp

/-- C6: a successful SegmentRunnerLoad from the initial (fresh) state
returns the number of segments parsed from the text -- the size of the
resulting segment table -- and marks the runner initialized. -/
theorem load_returns_segment_count (env : Env) (text : String) (r : Int)
    (s2 : VMSt)
    (h : segmentRunnerLoad env initState text = some (r, s2))
    (hr : r ≠ -1) :
    r = (s2.per_segment_pc_list.length : Int) ∧
    s2.are_segments_initialized = true := by
  rcases segmentRunnerLoad_inv env initState text r s2 h with ⟨h1, -⟩ | h2
  · exact absurd h1 hr
  · exact h2

theorem load_failure_leaves_uninit_witness :
    initState.are_segments_initialized = false ∧
    segmentRunnerLoad envMain initState "pc=0\n@seg\n" = some (-1, initState) ∧
    (initState.are_segments_initialized = false ∧
     segmentRunnerRun envMain initState 0 = some (-1, initState)) :=
  ⟨rfl, by decide,
   load_failure_leaves_uninit envMain initState "pc=0\n@seg\n" initState rfl
     (by decide)⟩

theorem load_returns_segment_count_witness :
    (2 : Int) = (sTwoSeg.per_segment_pc_list.length : Int) ∧
    sTwoSeg.are_segments_initialized = true :=
  load_returns_segment_count envMain "@seg\npc=0\n@seg\npc=1\n@seg\n" 2 sTwoSeg
    (by decide) (by decide)

/-- C1: behaviour of SegmentRunnerRun.  If the runner is not initialized, or
segment_id is not below the segment count, the call returns -1 with the
state unchanged.  Otherwise the segment's pc list is processed by runSegPcs,
which for each pc in order sets the VM's pc to that value and decodes and
executes one instruction (stepSegPc): a decoded Ret makes the call report
the error and return -1, and if no Ret is decoded the call returns
segment_id.  The last two conjuncts pin stepSegPc: a pc whose decoded
instruction is Ret yields exactly the retHit outcome with the pc set, and
retHit arises only from a decoded Ret. -/
theorem segmentRunnerRun_dispatch (env : Env) (s : VMSt) (segment_id : Nat) :
    (s.are_segments_initialized = false →
       segmentRunnerRun env s segment_id = some (-1, s)) ∧
    (s.are_segments_initialized = true →
       s.per_segment_pc_list.length ≤ segment_id →
       segmentRunnerRun env s segment_id = some (-1, s)) ∧
    (s.are_segments_initialized = true →
       segment_id < s.per_segment_pc_list.length →
       (∀ s2, runSegPcs env (s.per_segment_pc_list.getD segment_id []) s =
                some (SegLoopEnd.retHit s2) →
              segmentRunnerRun env s segment_id = some (-1, s2)) ∧
       (∀ s2, runSegPcs env (s.per_segment_pc_list.getD segment_id []) s =
                some (SegLoopEnd.done s2) →
              segmentRunnerRun env s segment_id =
                some ((segment_id : Int),
                      { s2 with prev_segment_id := (segment_id : Int) }))) ∧
    (∀ v st r, env.instructions.get? v = some (Instruction.ret r) →
       stepSegPc env v st = some (SegStep.retHit { st with pc := (v : Int) })) ∧
    (∀ v st st2, stepSegPc env v st = some (SegStep.retHit st2) →
       ∃ r, env.instructions.get? v = some (Instruction.ret r) ∧
            st2 = { st with pc := (v : Int) }) := by
  refine ⟨?_, ?_, ?_, ?_, ?_⟩
  · intro h
    unfold segmentRunnerRun
    rw [h]
    simp
  · intro h1 h2
    unfold segmentRunnerRun
    rw [h1]
    rw [if_neg (by simp)]
    rw [if_pos (by omega)]
  · intro h1 h2
    constructor
    · intro s2 hr
      unfold segmentRunnerRun
      rw [h1]
      rw [if_neg (by simp)]
      rw [if_neg (by omega)]
      rw [hr]
    · intro s2 hd
      unfold segmentRunnerRun
      rw [h1]
      rw [if_neg (by simp)]
      rw [if_neg (by omega)]
      rw [hd]
      simp only []
      split <;> rfl
  · intro v st r h
    unfold stepSegPc
    rw [h]
  · intro v st st2 h
    unfold stepSegPc at h
    rcases hg : env.instructions.get? v with _ | instr <;>
      rw [hg] at h <;> (try simp only [] at h)
    · exact Option.noConfusion h
    · cases instr with
      | call dst fi cargs =>
        rcases hf : ({ st with pc := (v : Int) } : VMSt).segments_frame with _ | f <;>
          rw [hf] at h <;> (try simp only [] at h)
        · exact Option.noConfusion h
        · rcases hrc : runInstrCall env f (v : Int) dst fi cargs with _ | out <;>
            rw [hrc] at h <;> (try simp only [] at h)
          · exact Option.noConfusion h
          · simp only [Option.some.injEq] at h
            exact absurd h (by simp)
      | ret r =>
        simp only [Option.some.injEq, SegStep.retHit.injEq] at h
        exact ⟨r, rfl, h.symm⟩
      | goto off =>
        simp only [Option.some.injEq] at h
        exact absurd h (by simp)
      | ifOp cond foff =>
        rcases hf : ({ st with pc := (v : Int) } : VMSt).segments_frame with _ | f <;>
          rw [hf] at h <;> (try simp only [] at h)
        · exact Option.noConfusion h
        · rcases hc : readRegister f cond with _ | cv <;>
            rw [hc] at h <;> (try simp only [] at h)
          · exact Option.noConfusion h
          · cases cv <;> (try simp only [] at h) <;>
              (try exact Option.noConfusion h)
            rename_i i
            by_cases hi : i ≠ 0
            · rw [if_pos hi] at h
              simp only [Option.some.injEq] at h
              exact absurd h (by simp)
            · rw [if_neg hi] at h
              by_cases ho : foff > 1
              · rw [if_pos ho] at h
                simp only [Option.some.injEq] at h
                exact absurd h (by simp)
              · rw [if_neg ho] at h
                exact Option.noConfusion h

theorem segmentRunnerRun_dispatch_witness :
    segmentRunnerRun envMain initState 0 = some (-1, initState) ∧
    segmentRunnerRun envRet sOneSeg 0 = some (-1, { sOneSeg with pc := 0 }) :=
  ⟨(segmentRunnerRun_dispatch envMain initState 0).1 rfl,
   ((segmentRunnerRun_dispatch envRet sOneSeg 0).2.2.1 rfl (by decide)).1
     { sOneSeg with pc := 0 } (by decide)⟩

/-- C9: executing a Ret instruction in the dispatch loop stores the value of
the register named by the instruction's source field into return_value_,
and when a parent frame exists on the frame stack the same value is written
into the register named by the current frame's caller_return_register in the
parent frame, so after the Ret the caller frame's caller-return register
equals the returned value. -/
theorem runLoop_ret_spec (env : Env) (fuel : Nat) (st : LoopSt) (curr : VMFrame)
    (r : Nat) (v : Value) (st2 : LoopSt)
    (hlast : st.frames.getLast? = some curr)
    (hpc : ¬ st.pc < 0)
    (hinstr : env.instructions.get? st.pc.toNat = some (Instruction.ret r))
    (hread : readRegister curr r = some v)
    (hrun : runLoop env (fuel + 1) st = some st2) :
    st2.return_value = v ∧
    (2 ≤ st.frames.length →
       ∃ parent2, st2.frames.dropLast.getLast? = some parent2 ∧
         parent2.register_file.get? curr.caller_return_register = some v) := by
  unfold runLoop at hrun
  rw [hlast] at hrun
  simp only [] at hrun
  rw [if_neg hpc, hinstr] at hrun
  simp only [] at hrun
  rw [hread] at hrun
  simp only [] at hrun
  by_cases hlen : st.frames.length ≤ 1
  · rw [if_pos hlen] at hrun
    simp only [Option.some.injEq] at hrun
    refine ⟨by rw [← hrun], ?_⟩
    intro h2
    omega
  · rw [if_neg hlen] at hrun
    obtain ⟨parent, hparent⟩ :=
      exists_getLast?_of_ne_nil st.frames.dropLast
        (by
          intro hnil
          have := List.length_dropLast st.frames
          rw [hnil] at this
          simp at this
          omega)
    rw [hparent] at hrun
    simp only [] at hrun
    unfold writeRegister at hrun
    by_cases hcr : curr.caller_return_register < parent.register_file.length
    · rw [if_pos hcr] at hrun
      simp only [Option.some.injEq] at hrun
      constructor
      · rw [← hrun]
      · intro h2
        refine ⟨{ parent with register_file :=
            parent.register_file.set curr.caller_return_register v }, ?_, ?_⟩
        · rw [← hrun]
          simp only []
          rw [dropLast_append_two, getLast?_append_one]
        · exact get?_set_self parent.register_file curr.caller_return_register v hcr
    · rw [if_neg hcr] at hrun
      simp only [] at hrun
      exact Option.noConfusion hrun

theorem runLoop_ret_spec_witness :
    ∃ st2, runLoop envRet 1 st9 = some st2 ∧
      st2.return_value = Value.int 7 ∧
      (∃ parent2, st2.frames.dropLast.getLast? = some parent2 ∧
        parent2.register_file.get? 0 = some (Value.int 7)) := by
  refine ⟨{ frames := [{ return_pc := 0, register_file := [Value.int 7],
                         caller_return_register := 0 },
                       { return_pc := 0, register_file := [Value.int 7],
                         caller_return_register := 0 }],
            pc := 0, return_value := Value.int 7 }, by decide, ?_⟩
  have h := runLoop_ret_spec envRet 0 st9
    { return_pc := 0, register_file := [Value.int 7], caller_return_register := 0 }
    0 (Value.int 7)
    { frames := [{ return_pc := 0, register_file := [Value.int 7],
                   caller_return_register := 0 },
                 { return_pc := 0, register_file := [Value.int 7],
                   caller_return_register := 0 }],
      pc := 0, return_value := Value.int 7 }
    (by decide) (by decide) (by decide) (by decide) (by decide)
  exact ⟨h.1, h.2 (by decide)⟩

/-- C8, amended: with an instrumentation callable installed and a Call
executing without SkipRun, every argument whose tag is a data-type
descriptor is converted to its string form before the pre-call
instrumentation is invoked, and the replacement is NOT restored: the real
native call receives the same converted argument vector (data-type values
appear in string form), not the original data-type values. -/
theorem runInstrCall_instrument_conversion (env : Env) (frame : VMFrame)
    (pc : Int) (dst func_idx : Nat) (args : List InstrArg)
    (instrumentFn : List Value → Value) (argVals : List Value)
    (finfo : VMFuncInfo) (out : InstrCallOut)
    (hI : env.instrument = some instrumentFn)
    (hA : setArgs env frame args = some argVals)
    (hT : env.func_table.get? func_idx = some finfo)
    (hrun : runInstrCall env frame pc dst func_idx args = some out)
    (hskip : (match instrumentFn ([Value.func func_idx, Value.str finfo.name,
                Value.bool true, Value.null] ++ argVals.map dtypeToStrSlot) with
              | Value.int k => k
              | _ => kNoOp) ≠ kSkipRun) :
    out.event.instrument_args = some ([Value.func func_idx, Value.str finfo.name,
      Value.bool true, Value.null] ++ argVals.map dtypeToStrSlot) ∧
    out.event.real_args = some (argVals.map dtypeToStrSlot) := by
  unfold runInstrCall at hrun
  rw [hA] at hrun
  simp only [] at hrun
  rw [hT] at hrun
  simp only [] at hrun
  rw [hI] at hrun
  simp only [] at hrun
  rw [if_pos hskip] at hrun
  rcases hw : (if dst < kBeginSpecialReg then
      writeRegister frame dst
        (env.invoke func_idx (argVals.map dtypeToStrSlot))
    else some frame) with _ | frame2 <;> rw [hw] at hrun <;>
    (try simp only [] at hrun)
  · exact Option.noConfusion hrun
  · simp only [Option.some.injEq] at hrun
    rw [← hrun]
    exact ⟨rfl, rfl⟩

theorem runInstrCall_instrument_conversion_witness :
    c8Out.event.instrument_args = some [Value.func 0, Value.str "f",
      Value.bool true, Value.null, Value.str "float32"] ∧
    c8Out.event.real_args = some [Value.str "float32"] :=
  runInstrCall_instrument_conversion c8Env c8Frame 0 0 0 [InstrArg.register 0]
    (fun _ => Value.int 0) [Value.dtype "float32"]
    { name := "f", start_instr := 0, register_file_size := 0, num_args := 0 }
    c8Out rfl (by decide) (by decide) (by decide) (by decide)

end TvmSegment







